import Mathlib

/-!
Shallow embedding of `src/signaling-server.js` (DistributedNN).

The server keeps two JavaScript `Map`s:
  * `peerRegistry : device_id -> { ws, info, status }`
  * `connections  : ws -> device_id`
JS `Map`s are modelled as insertion-ordered association lists without
duplicate keys; `mapGet`, `mapSet`, `mapDelete` mirror `get`, `set`,
`delete` (update-in-place of the first matching entry).

Transport sends (`ws.send`) may throw; this is modelled by a parameter
`sendOk : Ws -> Bool`.  A send performed outside a `try` block aborts the
handler (`threw := true`); the `ws.on message` wrapper then reports the
generic `Invalid JSON format` error, exactly as the catch-all in the
source does.  `Date.now()` is modelled by an explicit `now : Nat`.
-/

abbrev DeviceId := String
abbrev Ws := Nat
abbrev Payload := String
abbrev Resources := List (String × String)

inductive Status where
  | online
  | offline
deriving DecidableEq

/-- The declared `peer_info` object supplied with `register`; the fields the
server ever reads are `capabilities`, `cluster_specializations` and
`available_resources`, each of which may be absent. -/
structure DeclaredInfo where
  capabilities : Option (List String)
  cluster_specializations : Option (List String)
  available_resources : Option Resources
deriving DecidableEq

/-- The `info` object stored in the registry: the spread of the declared
`peer_info` overridden with `device_id`, `registered_at`, `last_seen`
(`handlePeerRegistration`, lines 99-108). -/
structure Info where
  capabilities : Option (List String)
  cluster_specializations : Option (List String)
  available_resources : Option Resources
  device_id : DeviceId
  registered_at : Nat
  last_seen : Nat
deriving DecidableEq

/-- One `peerRegistry` value: `{ ws, info, status }`. -/
structure PeerRecord where
  ws : Ws
  info : Info
  status : Status
deriving DecidableEq

structure ServerState where
  peerRegistry : List (DeviceId × PeerRecord)
  connections : List (Ws × DeviceId)
deriving DecidableEq

/-- JS `Map.get`. -/
def mapGet [DecidableEq α] (m : List (α × β)) (k : α) : Option β :=
  match m with
  | [] => none
  | p :: rest => if p.1 = k then some p.2 else mapGet rest k

/-- JS `Map.set`: overwrite the existing entry, else append. -/
def mapSet [DecidableEq α] (m : List (α × β)) (k : α) (v : β) : List (α × β) :=
  match m with
  | [] => [(k, v)]
  | p :: rest => if p.1 = k then (k, v) :: rest else p :: mapSet rest k v

/-- JS `Map.delete`. -/
def mapDelete [DecidableEq α] (m : List (α × β)) (k : α) : List (α × β) :=
  match m with
  | [] => []
  | p :: rest => if p.1 = k then rest else p :: mapDelete rest k

/-- The `filters` object of a `discover` message. -/
structure Filters where
  required_capabilities : Option (List String)
  specializations : Option (List String)
deriving DecidableEq

structure RegisterData where
  device_id : Option DeviceId
  peer_info : Option DeclaredInfo
deriving DecidableEq

structure DiscoverData where
  filters : Option Filters
deriving DecidableEq

structure SignalData where
  target_device_id : Option DeviceId
  signaling_data : Option Payload
deriving DecidableEq

structure AnnounceData where
  capabilities : Option (List String)
  specializations : Option (List String)
  resources : Option Resources
deriving DecidableEq

/-- Inbound message after JSON parsing and the `switch (type)` dispatch.
A `data` field of `none` models a message without a `data` object. -/
inductive InMsg where
  | register (data : Option RegisterData)
  | discover (data : Option DiscoverData)
  | signal (data : Option SignalData)
  | announce_capability (data : Option AnnounceData)
  | heartbeat
  | unknown (t : String)
deriving DecidableEq

/-- One inbound frame: either unparseable JSON or a parsed message. -/
inductive Frame where
  | malformed
  | parsed (msg : InMsg)
deriving DecidableEq

/-- Messages the server writes to a connection.  Error payload strings of
the source are represented by dedicated constructors. -/
inductive OutMsg where
  | errorInvalidJson
  | errorMissingFields
  | errorNotRegistered
  | errorTargetUnreachable
  | errorUnknownType (t : String)
  | registered (device_id : DeviceId) (server_time : Nat) (peer_count : Nat)
  | peer_joined (device_id : DeviceId) (info : Info) (total_peers : Nat)
  | discovery_result (peers : List Info) (total_found : Nat) (timestamp : Nat)
  | webrtc_signal (from_device_id : DeviceId) (signaling_data : Payload)
  | peer_updated (device_id : DeviceId) (capabilities specializations : List String)
  | heartbeat_ack (server_time : Nat) (peer_count : Nat)
  | peer_left (device_id : DeviceId) (total_peers : Option Nat) (reason : Option String)
deriving DecidableEq

/-- Result of running one handler: the new state, the messages delivered
(in order, with their destination connection) and whether an uncaught
exception escaped the handler. -/
structure HRes where
  st : ServerState
  out : List (Ws × OutMsg)
  threw : Bool
deriving DecidableEq

/-- Models `connections.get(ws)` followed by the `if (!device_id)`
truthiness test used by every handler (the empty string is falsy). -/
def jsGetId (st : ServerState) (ws : Ws) : Option DeviceId :=
  match mapGet st.connections ws with
  | none => none
  | some d => if d = "" then none else some d

/-- Count of records with `status === 'online'`
(`handleDisconnection` lines 285-286, `/stats` lines 334-335). -/
def onlineCount (st : ServerState) : Nat :=
  (st.peerRegistry.filter fun e => decide (e.2.status = Status.online)).length

/-- One iteration of the `broadcastToAllExcept` loop (lines 296-305):
skip the excluded connection and non-online records; `try` the send and on
failure demote the recipient to offline. -/
def bcStep (sendOk : Ws → Bool) (msg : OutMsg) (excludeWs : Ws)
    (acc : ServerState × List (Ws × OutMsg)) (e : DeviceId × PeerRecord) :
    ServerState × List (Ws × OutMsg) :=
  if e.2.ws ≠ excludeWs ∧ e.2.status = Status.online then
    if sendOk e.2.ws then
      (acc.1, acc.2 ++ [(e.2.ws, msg)])
    else
      ({ acc.1 with
          peerRegistry := mapSet acc.1.peerRegistry e.1 { e.2 with status := Status.offline } },
        acc.2)
  else acc

/-- `broadcastToAllExcept` (lines 295-306).  Never throws: every send is
inside a `try`/`catch`. -/
def broadcastToAllExcept (sendOk : Ws → Bool) (excludeWs : Ws) (msg : OutMsg)
    (st : ServerState) : ServerState × List (Ws × OutMsg) :=
  st.peerRegistry.foldl (bcStep sendOk msg excludeWs) (st, [])

/-- The capability / specialization filter evaluation of
`handlePeerDiscovery` (lines 153-169), including the JS truthiness of the
present-but-empty array and the `?.includes` optional chain. -/
def matchesFilter (filters : Option Filters) (info : Info) : Bool :=
  let m0 := true
  let m1 :=
    match filters.bind (·.required_capabilities) with
    | some caps =>
      if !(caps.all fun cap => (info.capabilities.getD []).contains cap) then false else m0
    | none => m0
  let m2 :=
    match filters.bind (·.specializations) with
    | some specs =>
      if !(specs.any fun sp => (info.cluster_specializations.getD []).contains sp) then false
      else m1
    | none => m1
  m2

/-- `handlePeerRegistration` (lines 87-135). -/
def handlePeerRegistration (sendOk : Ws → Bool) (now : Nat) (ws : Ws)
    (data : Option RegisterData) (st : ServerState) : HRes :=
  match data with
  | none => ⟨st, [], true⟩
  | some d =>
    match d.device_id, d.peer_info with
    | some device_id, some peer_info =>
      if device_id = "" then
        if sendOk ws then ⟨st, [(ws, OutMsg.errorMissingFields)], false⟩ else ⟨st, [], true⟩
      else
        let info : Info :=
          { capabilities := peer_info.capabilities
            cluster_specializations := peer_info.cluster_specializations
            available_resources := peer_info.available_resources
            device_id := device_id
            registered_at := now
            last_seen := now }
        let registrationInfo : PeerRecord := { ws := ws, info := info, status := Status.online }
        let st1 : ServerState :=
          { peerRegistry := mapSet st.peerRegistry device_id registrationInfo
            connections := mapSet st.connections ws device_id }
        if sendOk ws then
          let out1 := [(ws, OutMsg.registered device_id now st1.peerRegistry.length)]
          let r2 := broadcastToAllExcept sendOk ws
            (OutMsg.peer_joined device_id info st1.peerRegistry.length) st1
          ⟨r2.1, out1 ++ r2.2, false⟩
        else ⟨st1, [], true⟩
    | _, _ =>
      if sendOk ws then ⟨st, [(ws, OutMsg.errorMissingFields)], false⟩ else ⟨st, [], true⟩

/-- `handlePeerDiscovery` (lines 137-192). -/
def handlePeerDiscovery (sendOk : Ws → Bool) (now : Nat) (ws : Ws)
    (data : Option DiscoverData) (st : ServerState) : HRes :=
  match jsGetId st ws with
  | none =>
    if sendOk ws then ⟨st, [(ws, OutMsg.errorNotRegistered)], false⟩ else ⟨st, [], true⟩
  | some device_id =>
    let filters := data.bind (·.filters)
    let availablePeers :=
      (st.peerRegistry.filter fun e =>
        decide (e.1 ≠ device_id) && decide (e.2.status = Status.online)
          && matchesFilter filters e.2.info).map (fun e => e.2.info)
    if sendOk ws then
      ⟨st, [(ws, OutMsg.discovery_result availablePeers availablePeers.length now)], false⟩
    else ⟨st, [], true⟩

/-- `handleWebRTCSignaling` (lines 194-226).  Destructuring a missing
`data`, reading `signaling_data.type` off a missing payload, and the
un-caught `targetPeer.ws.send` all throw to the message-loop catch. -/
def handleWebRTCSignaling (sendOk : Ws → Bool) (ws : Ws)
    (data : Option SignalData) (st : ServerState) : HRes :=
  match data with
  | none => ⟨st, [], true⟩
  | some d =>
    match jsGetId st ws with
    | none =>
      if sendOk ws then ⟨st, [(ws, OutMsg.errorNotRegistered)], false⟩ else ⟨st, [], true⟩
    | some source_device_id =>
      let targetPeer? :=
        match d.target_device_id with
        | none => none
        | some t => mapGet st.peerRegistry t
      match targetPeer? with
      | none =>
        if sendOk ws then ⟨st, [(ws, OutMsg.errorTargetUnreachable)], false⟩
        else ⟨st, [], true⟩
      | some targetPeer =>
        if targetPeer.status ≠ Status.online then
          if sendOk ws then ⟨st, [(ws, OutMsg.errorTargetUnreachable)], false⟩
          else ⟨st, [], true⟩
        else
          match d.signaling_data with
          | none => ⟨st, [], true⟩
          | some payload =>
            if sendOk targetPeer.ws then
              ⟨st, [(targetPeer.ws, OutMsg.webrtc_signal source_device_id payload)], false⟩
            else ⟨st, [], true⟩

/-- `handleCapabilityAnnouncement` (lines 228-250).  An unbound connection
or a missing record is a silent return. -/
def handleCapabilityAnnouncement (sendOk : Ws → Bool) (ws : Ws)
    (data : Option AnnounceData) (st : ServerState) : HRes :=
  match jsGetId st ws with
  | none => ⟨st, [], false⟩
  | some device_id =>
    match mapGet st.peerRegistry device_id with
    | none => ⟨st, [], false⟩
    | some peer =>
      match data with
      | none => ⟨st, [], true⟩
      | some d =>
        let info1 :=
          { peer.info with
              capabilities := some (d.capabilities.getD [])
              cluster_specializations := some (d.specializations.getD [])
              available_resources := some (d.resources.getD []) }
        let st1 :=
          { st with peerRegistry := mapSet st.peerRegistry device_id { peer with info := info1 } }
        let r2 := broadcastToAllExcept sendOk ws
          (OutMsg.peer_updated device_id (d.capabilities.getD []) (d.specializations.getD [])) st1
        ⟨r2.1, r2.2, false⟩

/-- `handleHeartbeat` (lines 252-270).  An unbound connection or a missing
record is a silent return. -/
def handleHeartbeat (sendOk : Ws → Bool) (now : Nat) (ws : Ws) (st : ServerState) : HRes :=
  match jsGetId st ws with
  | none => ⟨st, [], false⟩
  | some device_id =>
    match mapGet st.peerRegistry device_id with
    | none => ⟨st, [], false⟩
    | some peer =>
      let peer1 := { peer with info := { peer.info with last_seen := now }, status := Status.online }
      let st1 := { st with peerRegistry := mapSet st.peerRegistry device_id peer1 }
      if sendOk ws then
        ⟨st1, [(ws, OutMsg.heartbeat_ack now st1.peerRegistry.length)], false⟩
      else ⟨st1, [], true⟩

/-- The `switch (type)` dispatch of `handleMessage` (lines 54-85). -/
def handleMessage (sendOk : Ws → Bool) (now : Nat) (ws : Ws) (msg : InMsg)
    (st : ServerState) : HRes :=
  match msg with
  | InMsg.register d => handlePeerRegistration sendOk now ws d st
  | InMsg.discover d => handlePeerDiscovery sendOk now ws d st
  | InMsg.signal d => handleWebRTCSignaling sendOk ws d st
  | InMsg.announce_capability d => handleCapabilityAnnouncement sendOk ws d st
  | InMsg.heartbeat => handleHeartbeat sendOk now ws st
  | InMsg.unknown t =>
    if sendOk ws then ⟨st, [(ws, OutMsg.errorUnknownType t)], false⟩ else ⟨st, [], true⟩

/-- The `ws.on message` wrapper (lines 31-42): parse errors and any
exception escaping a handler are answered with the `Invalid JSON format`
error message. -/
def onFrame (sendOk : Ws → Bool) (now : Nat) (ws : Ws) (f : Frame)
    (st : ServerState) : ServerState × List (Ws × OutMsg) :=
  match f with
  | Frame.malformed => (st, if sendOk ws then [(ws, OutMsg.errorInvalidJson)] else [])
  | Frame.parsed m =>
    let r := handleMessage sendOk now ws m st
    if r.threw then
      (r.st, r.out ++ if sendOk ws then [(ws, OutMsg.errorInvalidJson)] else [])
    else (r.st, r.out)

/-- `handleDisconnection` (lines 272-293). -/
def handleDisconnection (sendOk : Ws → Bool) (ws : Ws) (st : ServerState) :
    ServerState × List (Ws × OutMsg) :=
  match jsGetId st ws with
  | none => (st, [])
  | some device_id =>
    let r :=
      match mapGet st.peerRegistry device_id with
      | none => (st, ([] : List (Ws × OutMsg)))
      | some peer =>
        let st1 :=
          { st with
              peerRegistry := mapSet st.peerRegistry device_id { peer with status := Status.offline } }
        broadcastToAllExcept sendOk ws
          (OutMsg.peer_left device_id (some (onlineCount st1)) none) st1
    ({ r.1 with connections := mapDelete r.1.connections ws }, r.2)

/-- `const timeout = 60000` (line 311). -/
def cleanupTimeoutMs : Nat := 60000

/-- The `setInterval` period, 30000 ms (line 327). -/
def sweepIntervalMs : Nat := 30000

/-- One iteration of the cleanup loop (lines 313-326), reading the current
value of the registry entry for the visited key. -/
def sweepStep (sendOk : Ws → Bool) (now : Nat)
    (acc : ServerState × List (Ws × OutMsg)) (device_id : DeviceId) :
    ServerState × List (Ws × OutMsg) :=
  match mapGet acc.1.peerRegistry device_id with
  | none => acc
  | some peer =>
    if now - peer.info.last_seen > cleanupTimeoutMs ∧ peer.status = Status.online then
      let st1 :=
        { acc.1 with
            peerRegistry := mapSet acc.1.peerRegistry device_id { peer with status := Status.offline } }
      let r2 := broadcastToAllExcept sendOk peer.ws
        (OutMsg.peer_left device_id none (some "timeout")) st1
      (r2.1, acc.2 ++ r2.2)
    else acc

/-- The periodic cleanup sweep (lines 309-327). -/
def cleanupSweep (sendOk : Ws → Bool) (now : Nat) (st : ServerState) :
    ServerState × List (Ws × OutMsg) :=
  (st.peerRegistry.map Prod.fst).foldl (sweepStep sendOk now) (st, [])

/-- Transport in which every send succeeds. -/
def allOk : Ws → Bool := fun _ => true

/-! ### Association-list lemmas -/

theorem mapGet_mapSet_self [DecidableEq α] (m : List (α × β)) (k : α) (v : β) :
    mapGet (mapSet m k v) k = some v := by
  induction m with
  | nil => simp [mapSet, mapGet]
  | cons p rest ih =>
    by_cases h : p.1 = k
    · simp [mapSet, mapGet, h]
    · simp [mapSet, mapGet, h, ih]

theorem mapGet_mapSet_ne [DecidableEq α] (m : List (α × β)) (k k' : α) (v : β)
    (h : k' ≠ k) : mapGet (mapSet m k v) k' = mapGet m k' := by
  have h1 : ¬(k = k') := fun hh => h hh.symm
  induction m with
  | nil => simp [mapSet, mapGet, h1]
  | cons p rest ih =>
    by_cases hp : p.1 = k
    · have h2 : ¬(p.1 = k') := fun hh => h1 (hp.symm.trans hh)
      simp [mapSet, mapGet, hp, h1, h2]
    · simp [mapSet, mapGet, hp, ih]

theorem mapGet_mem [DecidableEq α] (m : List (α × β)) (k : α) (v : β)
    (h : mapGet m k = some v) : (k, v) ∈ m := by
  induction m with
  | nil => simp [mapGet] at h
  | cons p rest ih =>
    by_cases hp : p.1 = k
    · simp only [mapGet, if_pos hp, Option.some.injEq] at h
      have hpv : p = (k, v) := by
        rcases p with ⟨a, b⟩
        simp only at hp h
        rw [hp, h]
      rw [← hpv]
      exact List.mem_cons_self p rest
    · simp only [mapGet, if_neg hp] at h
      exact List.mem_cons_of_mem _ (ih h)

theorem mem_mapSet_ne [DecidableEq α] (m : List (α × β)) (k k' : α) (v v' : β)
    (hmem : (k', v') ∈ m) (hne : k' ≠ k) : (k', v') ∈ mapSet m k v := by
  induction m with
  | nil => simp at hmem
  | cons p rest ih =>
    by_cases hp : p.1 = k
    · rcases List.mem_cons.mp hmem with h | h
      · exact absurd (by rw [← h] at hp; exact hp) hne
      · simp [mapSet, hp]
        right
        exact h
    · rcases List.mem_cons.mp hmem with h | h
      · simp [mapSet, hp, h]
      · simp only [mapSet, if_neg hp]
        exact List.mem_cons_of_mem _ (ih h)

theorem length_mapSet_of_get [DecidableEq α] (m : List (α × β)) (k : α) (v v' : β)
    (h : mapGet m k = some v') : (mapSet m k v).length = m.length := by
  induction m with
  | nil => simp [mapGet] at h
  | cons p rest ih =>
    by_cases hp : p.1 = k
    · simp [mapSet, hp]
    · simp [mapGet, hp] at h
      simp [mapSet, hp, ih h]

/-! ### Broadcast lemmas -/

theorem bc_foldl_connections (sendOk : Ws → Bool) (msg : OutMsg) (x : Ws) :
    ∀ (l : List (DeviceId × PeerRecord)) (acc : ServerState × List (Ws × OutMsg)),
      (l.foldl (bcStep sendOk msg x) acc).1.connections = acc.1.connections := by
  intro l
  induction l with
  | nil => intro acc; rfl
  | cons e rest ih =>
    intro acc
    rw [List.foldl_cons, ih]
    unfold bcStep
    split
    · split <;> rfl
    · rfl

/-- `broadcastToAllExcept` never touches the `connections` map. -/
theorem broadcast_connections (sendOk : Ws → Bool) (x : Ws) (msg : OutMsg)
    (st : ServerState) :
    (broadcastToAllExcept sendOk x msg st).1.connections = st.connections :=
  bc_foldl_connections sendOk msg x st.peerRegistry (st, [])

theorem bc_foldl_out (sendOk : Ws → Bool) (msg : OutMsg) (x : Ws) :
    ∀ (l : List (DeviceId × PeerRecord)) (acc : ServerState × List (Ws × OutMsg)),
      (l.foldl (bcStep sendOk msg x) acc).2 =
        acc.2 ++ (l.filter fun e =>
          decide (e.2.ws ≠ x) && decide (e.2.status = Status.online) && sendOk e.2.ws).map
            (fun e => (e.2.ws, msg)) := by
  intro l
  induction l with
  | nil => intro acc; simp
  | cons e rest ih =>
    intro acc
    rw [List.foldl_cons, ih]
    by_cases h1 : e.2.ws ≠ x ∧ e.2.status = Status.online
    · by_cases h2 : sendOk e.2.ws
      · simp [bcStep, h1, h1.1, h1.2, h2]
      · simp [bcStep, h1, h1.1, h1.2, h2]
    · rw [not_and_or] at h1
      rcases h1 with h1 | h1
      · simp only [ne_eq, not_not] at h1
        simp [bcStep, h1]
      · simp [bcStep, h1]

/-- The messages a broadcast actually delivers: one copy of `msg` to every
online record whose connection differs from the excluded one and accepts
the send. -/
theorem broadcast_out (sendOk : Ws → Bool) (x : Ws) (msg : OutMsg) (st : ServerState) :
    (broadcastToAllExcept sendOk x msg st).2 =
      (st.peerRegistry.filter fun e =>
        decide (e.2.ws ≠ x) && decide (e.2.status = Status.online) && sendOk e.2.ws).map
          (fun e => (e.2.ws, msg)) := by
  have h := bc_foldl_out sendOk msg x st.peerRegistry (st, [])
  simpa using h

theorem bc_foldl_frame (sendOk : Ws → Bool) (msg : OutMsg) (x : Ws) :
    ∀ (l : List (DeviceId × PeerRecord)) (acc : ServerState × List (Ws × OutMsg))
      (did : DeviceId), (∀ e ∈ l, e.1 ≠ did) →
      mapGet (l.foldl (bcStep sendOk msg x) acc).1.peerRegistry did =
        mapGet acc.1.peerRegistry did := by
  intro l
  induction l with
  | nil => intro acc did _; rfl
  | cons e rest ih =>
    intro acc did hne
    rw [List.foldl_cons, ih _ _ (fun e' he' => hne e' (List.mem_cons_of_mem _ he'))]
    unfold bcStep
    split
    · split
      · rfl
      · exact mapGet_mapSet_ne _ _ _ _ (fun hh => hne e (List.mem_cons_self e rest) hh.symm)
    · rfl

/-- Pointwise effect of one broadcast on the registry: a recipient whose
send fails is demoted, everything else is untouched. -/
theorem bc_foldl_point (sendOk : Ws → Bool) (msg : OutMsg) (x : Ws) :
    ∀ (l : List (DeviceId × PeerRecord)) (acc : ServerState × List (Ws × OutMsg))
      (did : DeviceId) (p : PeerRecord),
      (l.map Prod.fst).Nodup → (did, p) ∈ l → mapGet acc.1.peerRegistry did = some p →
      mapGet (l.foldl (bcStep sendOk msg x) acc).1.peerRegistry did =
        some (if p.ws ≠ x ∧ p.status = Status.online ∧ sendOk p.ws = false
              then { p with status := Status.offline } else p) := by
  intro l
  induction l with
  | nil => intro acc did p _ hmem _; simp at hmem
  | cons e rest ih =>
    intro acc did p hnd hmem hget
    have hnd1 : e.1 ∉ rest.map Prod.fst := (List.nodup_cons.mp hnd).1
    have hnd2 : (rest.map Prod.fst).Nodup := (List.nodup_cons.mp hnd).2
    rcases List.mem_cons.mp hmem with he | he
    · have he1 : e.1 = did := by rw [← he]
      have he2 : e.2 = p := by rw [← he]
      have hrest : ∀ e' ∈ rest, e'.1 ≠ did := by
        intro e' he' hc
        exact hnd1 (he1 ▸ hc ▸ List.mem_map_of_mem Prod.fst he')
      rw [List.foldl_cons, bc_foldl_frame sendOk msg x rest _ did hrest]
      unfold bcStep
      rw [he1, he2]
      by_cases h1 : p.ws ≠ x ∧ p.status = Status.online
      · by_cases h2 : sendOk p.ws
        · have : ¬(p.ws ≠ x ∧ p.status = Status.online ∧ sendOk p.ws = false) := by
            intro hc
            rw [h2] at hc
            simp at hc
          simp only [if_pos h1, if_pos h2, if_neg this]
          exact hget
        · have h2' : sendOk p.ws = false := by
            cases hs : sendOk p.ws
            · rfl
            · exact absurd hs h2
          simp only [if_pos h1, if_neg h2,
            if_pos (show p.ws ≠ x ∧ p.status = Status.online ∧ sendOk p.ws = false from
              ⟨h1.1, h1.2, h2'⟩)]
          exact mapGet_mapSet_self _ _ _
      · have : ¬(p.ws ≠ x ∧ p.status = Status.online ∧ sendOk p.ws = false) := by
          intro hc
          exact h1 ⟨hc.1, hc.2.1⟩
        simp only [if_neg h1, if_neg this]
        exact hget
    · have hne : e.1 ≠ did := by
        intro hc
        exact hnd1 (hc ▸ List.mem_map_of_mem Prod.fst he)
      rw [List.foldl_cons]
      apply ih _ did p hnd2 he
      unfold bcStep
      split
      · split
        · exact hget
        · rw [mapGet_mapSet_ne _ _ _ _ (fun hh => hne hh.symm)]
          exact hget
      · exact hget

/-- Registry effect of `broadcastToAllExcept`, record by record. -/
theorem broadcast_point (sendOk : Ws → Bool) (x : Ws) (msg : OutMsg) (st : ServerState)
    (did : DeviceId) (p : PeerRecord)
    (hnd : (st.peerRegistry.map Prod.fst).Nodup)
    (hget : mapGet st.peerRegistry did = some p) :
    mapGet (broadcastToAllExcept sendOk x msg st).1.peerRegistry did =
      some (if p.ws ≠ x ∧ p.status = Status.online ∧ sendOk p.ws = false
            then { p with status := Status.offline } else p) :=
  bc_foldl_point sendOk msg x st.peerRegistry (st, []) did p hnd (mapGet_mem _ _ _ hget) hget

theorem bc_foldl_state_allOk (msg : OutMsg) (x : Ws) :
    ∀ (l : List (DeviceId × PeerRecord)) (acc : ServerState × List (Ws × OutMsg)),
      (l.foldl (bcStep allOk msg x) acc).1 = acc.1 := by
  intro l
  induction l with
  | nil => intro acc; rfl
  | cons e rest ih =>
    intro acc
    rw [List.foldl_cons, ih]
    unfold bcStep
    split
    · simp [allOk]
    · rfl

/-- With a fully reliable transport a broadcast leaves the state alone. -/
theorem broadcast_state_allOk (x : Ws) (msg : OutMsg) (st : ServerState) :
    (broadcastToAllExcept allOk x msg st).1 = st :=
  bc_foldl_state_allOk msg x st.peerRegistry (st, [])

/-! ### Cleanup-sweep lemmas (reliable transport) -/

theorem sweep_foldl_connections (sendOk : Ws → Bool) (now : Nat) :
    ∀ (l : List DeviceId) (acc : ServerState × List (Ws × OutMsg)),
      (l.foldl (sweepStep sendOk now) acc).1.connections = acc.1.connections := by
  intro l
  induction l with
  | nil => intro acc; rfl
  | cons d rest ih =>
    intro acc
    rw [List.foldl_cons, ih]
    unfold sweepStep
    split
    · rfl
    · split
      · exact broadcast_connections _ _ _ _
      · rfl

theorem sweep_foldl_out_mono (sendOk : Ws → Bool) (now : Nat) :
    ∀ (l : List DeviceId) (acc : ServerState × List (Ws × OutMsg)) (w : Ws) (m : OutMsg),
      (w, m) ∈ acc.2 → (w, m) ∈ (l.foldl (sweepStep sendOk now) acc).2 := by
  intro l
  induction l with
  | nil => intro acc w m hm; exact hm
  | cons d rest ih =>
    intro acc w m hm
    rw [List.foldl_cons]
    apply ih
    unfold sweepStep
    split
    · exact hm
    · split
      · exact List.mem_append_left _ hm
      · exact hm

theorem sweep_foldl_frame (now : Nat) :
    ∀ (l : List DeviceId) (acc : ServerState × List (Ws × OutMsg)) (did : DeviceId),
      did ∉ l →
      mapGet (l.foldl (sweepStep allOk now) acc).1.peerRegistry did =
        mapGet acc.1.peerRegistry did := by
  intro l
  induction l with
  | nil => intro acc did _; rfl
  | cons d rest ih =>
    intro acc did hmem
    have hne : d ≠ did := fun hc => hmem (hc ▸ List.mem_cons_self d rest)
    rw [List.foldl_cons, ih _ did (fun hc => hmem (List.mem_cons_of_mem _ hc))]
    unfold sweepStep
    split
    · rfl
    · split
      · rename_i peer _ _
        have hb := broadcast_state_allOk peer.ws
          (OutMsg.peer_left d none (some "timeout"))
        rw [hb]
        exact mapGet_mapSet_ne _ _ _ _ (fun hh => hne hh.symm)
      · rfl

theorem sweep_foldl_point (now : Nat) :
    ∀ (l : List DeviceId) (acc : ServerState × List (Ws × OutMsg)) (did : DeviceId)
      (p : PeerRecord), l.Nodup → did ∈ l → mapGet acc.1.peerRegistry did = some p →
      mapGet (l.foldl (sweepStep allOk now) acc).1.peerRegistry did =
        some (if now - p.info.last_seen > cleanupTimeoutMs ∧ p.status = Status.online
              then { p with status := Status.offline } else p) := by
  intro l
  induction l with
  | nil => intro acc did p _ hmem _; simp at hmem
  | cons d rest ih =>
    intro acc did p hnd hmem hget
    have hnd1 : d ∉ rest := (List.nodup_cons.mp hnd).1
    have hnd2 : rest.Nodup := (List.nodup_cons.mp hnd).2
    rcases List.mem_cons.mp hmem with he | he
    · subst he
      rw [List.foldl_cons, sweep_foldl_frame now rest _ did hnd1]
      unfold sweepStep
      rw [hget]
      by_cases h1 : now - p.info.last_seen > cleanupTimeoutMs ∧ p.status = Status.online
      · simp only [if_pos h1]
        have hb := broadcast_state_allOk p.ws (OutMsg.peer_left did none (some "timeout"))
        simp only [hb]
        exact mapGet_mapSet_self _ _ _
      · simp only [if_neg h1]
        exact hget
    · have hne : d ≠ did := fun hc => hnd1 (hc ▸ he)
      rw [List.foldl_cons]
      apply ih _ did p hnd2 he
      unfold sweepStep
      split
      · exact hget
      · split
        · rename_i peer _ _
          have hb := broadcast_state_allOk peer.ws
            (OutMsg.peer_left d none (some "timeout"))
          rw [hb]
          show mapGet (mapSet acc.1.peerRegistry d { peer with status := Status.offline }) did
            = some p
          rw [mapGet_mapSet_ne _ _ _ _ (fun hh => hne hh.symm)]
          exact hget
        · exact hget

theorem sweepStep_none (sendOk : Ws → Bool) (now : Nat)
    (acc : ServerState × List (Ws × OutMsg)) (d : DeviceId)
    (h : mapGet acc.1.peerRegistry d = none) : sweepStep sendOk now acc d = acc := by
  unfold sweepStep
  rw [h]

theorem sweepStep_fresh (sendOk : Ws → Bool) (now : Nat)
    (acc : ServerState × List (Ws × OutMsg)) (d : DeviceId) (peer : PeerRecord)
    (h : mapGet acc.1.peerRegistry d = some peer)
    (hc : ¬(now - peer.info.last_seen > cleanupTimeoutMs ∧ peer.status = Status.online)) :
    sweepStep sendOk now acc d = acc := by
  unfold sweepStep
  rw [h]
  simp only [if_neg hc]

theorem sweepStep_stale (sendOk : Ws → Bool) (now : Nat)
    (acc : ServerState × List (Ws × OutMsg)) (d : DeviceId) (peer : PeerRecord)
    (h : mapGet acc.1.peerRegistry d = some peer)
    (hc : now - peer.info.last_seen > cleanupTimeoutMs ∧ peer.status = Status.online) :
    sweepStep sendOk now acc d =
      ((broadcastToAllExcept sendOk peer.ws (OutMsg.peer_left d none (some "timeout"))
          { acc.1 with
              peerRegistry := mapSet acc.1.peerRegistry d { peer with status := Status.offline } }).1,
        acc.2 ++
          (broadcastToAllExcept sendOk peer.ws (OutMsg.peer_left d none (some "timeout"))
            { acc.1 with
                peerRegistry := mapSet acc.1.peerRegistry d { peer with status := Status.offline } }).2) := by
  unfold sweepStep
  rw [h]
  simp only [if_pos hc]

/-- During a sweep over a reliable transport, every record that stays
Online (and is bound to a different connection than the stale peer)
receives the stale peer's timeout `peer_left`. -/
theorem sweep_foldl_delivers (now : Nat) :
    ∀ (l : List DeviceId) (acc : ServerState × List (Ws × OutMsg)) (did : DeviceId)
      (p : PeerRecord) (qid : DeviceId) (q : PeerRecord),
      l.Nodup → did ∈ l →
      mapGet acc.1.peerRegistry did = some p →
      now - p.info.last_seen > cleanupTimeoutMs → p.status = Status.online →
      mapGet acc.1.peerRegistry qid = some q →
      q.status = Status.online → ¬(now - q.info.last_seen > cleanupTimeoutMs) →
      qid ≠ did → q.ws ≠ p.ws →
      (q.ws, OutMsg.peer_left did none (some "timeout")) ∈
        (l.foldl (sweepStep allOk now) acc).2 := by
  intro l
  induction l with
  | nil => intro acc did p qid q _ hmem _ _ _ _ _ _ _ _; simp at hmem
  | cons d rest ih =>
    intro acc did p qid q hnd hmem hp hstale hon hq hqon hqfresh hne hws
    have hnd2 : rest.Nodup := (List.nodup_cons.mp hnd).2
    rw [List.foldl_cons]
    by_cases hd : d = did
    · subst hd
      rw [sweepStep_stale allOk now acc d p hp ⟨hstale, hon⟩]
      apply sweep_foldl_out_mono
      refine List.mem_append_right _ ?_
      rw [broadcast_out, List.mem_map]
      refine ⟨(qid, q), ?_, rfl⟩
      rw [List.mem_filter]
      constructor
      · exact mem_mapSet_ne _ _ _ _ _ (mapGet_mem _ _ _ hq) hne
      · simp [hqon, hws, allOk]
    · have hdid : did ∈ rest := by
        rcases List.mem_cons.mp hmem with h | h
        · exact absurd h.symm hd
        · exact h
      cases hh : mapGet acc.1.peerRegistry d with
      | none =>
        rw [sweepStep_none allOk now acc d hh]
        exact ih acc did p qid q hnd2 hdid hp hstale hon hq hqon hqfresh hne hws
      | some peerD =>
        by_cases hcond :
            now - peerD.info.last_seen > cleanupTimeoutMs ∧ peerD.status = Status.online
        · have hdq : d ≠ qid := by
            intro hc
            subst hc
            rw [hq] at hh
            injection hh with hh2
            rw [← hh2] at hcond
            exact hqfresh hcond.1
          rw [sweepStep_stale allOk now acc d peerD hh hcond]
          apply ih _ did p qid q hnd2 hdid ?_ hstale hon ?_ hqon hqfresh hne hws
          · rw [broadcast_state_allOk]
            show mapGet (mapSet acc.1.peerRegistry d { peerD with status := Status.offline }) did
              = some p
            rw [mapGet_mapSet_ne _ _ _ _ (fun hc => hd hc.symm)]
            exact hp
          · rw [broadcast_state_allOk]
            show mapGet (mapSet acc.1.peerRegistry d { peerD with status := Status.offline }) qid
              = some q
            rw [mapGet_mapSet_ne _ _ _ _ (fun hc => hdq hc.symm)]
            exact hq
        · rw [sweepStep_fresh allOk now acc d peerD hh hcond]
          exact ih acc did p qid q hnd2 hdid hp hstale hon hq hqon hqfresh hne hws

/-! ### Discovery: claim-side predicate -/

theorem contains_eq_decide_mem (l : List String) (a : String) :
    l.contains a = decide (a ∈ l) := by
  by_cases h : a ∈ l <;> simp [h]

/-- The matching predicate as the claim words it: the record is Online, its
key differs from the requester, every capability listed in
`filters.required_capabilities` is present (vacuous when the list is absent
or empty), and when `filters.specializations` is present at least one of
its entries is shared. -/
def claimMatch (requester : DeviceId) (filters : Option Filters)
    (e : DeviceId × PeerRecord) : Bool :=
  decide (e.2.status = Status.online) && decide (e.1 ≠ requester)
    && (match filters.bind (·.required_capabilities) with
        | none => true
        | some caps => caps.all fun cap => decide (cap ∈ e.2.info.capabilities.getD []))
    && (match filters.bind (·.specializations) with
        | none => true
        | some specs =>
          specs.any fun sp => decide (sp ∈ e.2.info.cluster_specializations.getD []))

theorem discovery_pred_eq_claim (did : DeviceId) (filters : Option Filters)
    (e : DeviceId × PeerRecord) :
    (decide (e.1 ≠ did) && decide (e.2.status = Status.online)
      && matchesFilter filters e.2.info) = claimMatch did filters e := by
  unfold matchesFilter claimMatch
  simp only [contains_eq_decide_mem]
  cases hc : filters.bind (·.required_capabilities) with
  | none =>
    cases hs : filters.bind (·.specializations) with
    | none =>
      cases h1 : decide (e.1 ≠ did) <;> cases h2 : decide (e.2.status = Status.online) <;> simp
    | some specs =>
      cases h1 : decide (e.1 ≠ did) <;> cases h2 : decide (e.2.status = Status.online) <;>
        cases h3 : specs.any (fun sp => decide (sp ∈ e.2.info.cluster_specializations.getD [])) <;>
        simp [h3]
  | some caps =>
    cases hs : filters.bind (·.specializations) with
    | none =>
      cases h1 : decide (e.1 ≠ did) <;> cases h2 : decide (e.2.status = Status.online) <;>
        cases h4 : caps.all (fun cap => decide (cap ∈ e.2.info.capabilities.getD [])) <;>
        simp [h4]
    | some specs =>
      cases h1 : decide (e.1 ≠ did) <;> cases h2 : decide (e.2.status = Status.online) <;>
        cases h3 : specs.any (fun sp => decide (sp ∈ e.2.info.cluster_specializations.getD [])) <;>
        cases h4 : caps.all (fun cap => decide (cap ∈ e.2.info.capabilities.getD [])) <;>
        simp [h3, h4]

/-- C1: a discover request from a registered requester is answered with
exactly the Online records other than the requester that satisfy the
capability filter (AND, vacuous when absent or empty) and the
specialization filter (OR, when present); an absent filter object matches
every other Online record; the state is not mutated. -/
theorem discovery_matches_exactly (sendOk : Ws → Bool) (now : Nat) (ws : Ws)
    (data : Option DiscoverData) (st : ServerState) (did : DeviceId)
    (hbound : jsGetId st ws = some did) (hok : sendOk ws = true) :
    handlePeerDiscovery sendOk now ws data st =
      ⟨st,
        [(ws, OutMsg.discovery_result
          ((st.peerRegistry.filter (claimMatch did (data.bind (·.filters)))).map fun e => e.2.info)
          ((st.peerRegistry.filter (claimMatch did (data.bind (·.filters)))).map
            fun e => e.2.info).length
          now)],
        false⟩
    ∧ (data.bind (·.filters) = none ∨ data.bind (·.filters) = some ⟨none, none⟩ →
        st.peerRegistry.filter (claimMatch did (data.bind (·.filters))) =
          st.peerRegistry.filter fun e =>
            decide (e.2.status = Status.online) && decide (e.1 ≠ did)) := by
  have hfilter :
      (st.peerRegistry.filter fun e =>
        decide (e.1 ≠ did) && decide (e.2.status = Status.online)
          && matchesFilter (data.bind (·.filters)) e.2.info) =
        st.peerRegistry.filter (claimMatch did (data.bind (·.filters))) :=
    List.filter_congr fun a _ => discovery_pred_eq_claim did _ a
  constructor
  · unfold handlePeerDiscovery
    simp only [hbound, hok, if_true]
    rw [hfilter]
  · intro hnone
    rcases hnone with hnone | hnone <;>
      · rw [hnone]
        apply List.filter_congr
        intro a _
        simp [claimMatch, Bool.and_comm]

/-- C9: an unparseable frame is answered with the malformed-input error and
an unrecognized message kind with the unknown-kind error; in both cases the
state (registry and bindings) is unchanged. -/
theorem malformed_and_unknown_errors (sendOk : Ws → Bool) (now : Nat) (ws : Ws)
    (st : ServerState) (t : String) (hok : sendOk ws = true) :
    onFrame sendOk now ws Frame.malformed st = (st, [(ws, OutMsg.errorInvalidJson)]) ∧
    onFrame sendOk now ws (Frame.parsed (InMsg.unknown t)) st
      = (st, [(ws, OutMsg.errorUnknownType t)]) := by
  constructor
  · simp [onFrame, hok]
  · simp [onFrame, handleMessage, hok]

theorem malformed_and_unknown_errors_witness :
    onFrame allOk 3 0 Frame.malformed ⟨[], []⟩ = (⟨[], []⟩, [(0, OutMsg.errorInvalidJson)]) ∧
    onFrame allOk 3 0 (Frame.parsed (InMsg.unknown "zap")) ⟨[], []⟩
      = (⟨[], []⟩, [(0, OutMsg.errorUnknownType "zap")]) :=
  malformed_and_unknown_errors allOk 3 0 ⟨[], []⟩ "zap" rfl

/-- C10: a register message with a missing or empty device_id or a missing
peer_info is answered with an error and leaves the registry and the
connection bindings untouched. -/
theorem register_missing_fields_rejected (sendOk : Ws → Bool) (now : Nat) (ws : Ws)
    (st : ServerState) (d : RegisterData) (hok : sendOk ws = true)
    (hbad : d.device_id = none ∨ d.device_id = some "" ∨ d.peer_info = none) :
    handlePeerRegistration sendOk now ws (some d) st
      = ⟨st, [(ws, OutMsg.errorMissingFields)], false⟩ := by
  obtain ⟨di, pi⟩ := d
  cases di with
  | none => cases pi <;> simp [handlePeerRegistration, hok]
  | some s =>
    cases pi with
    | none => simp [handlePeerRegistration, hok]
    | some pinfo =>
      have hs : s = "" := by
        rcases hbad with h | h | h
        · exact absurd h (by simp)
        · simpa using h
        · exact absurd h (by simp)
      subst hs
      simp [handlePeerRegistration, hok]

theorem register_missing_fields_rejected_witness :
    handlePeerRegistration allOk 4 2 (some ⟨some "", some ⟨none, none, none⟩⟩) ⟨[], []⟩
      = ⟨⟨[], []⟩, [(2, OutMsg.errorMissingFields)], false⟩ :=
  register_missing_fields_rejected allOk 4 2 ⟨[], []⟩ ⟨some "", some ⟨none, none, none⟩⟩ rfl
    (Or.inr (Or.inl rfl))

/-! ### Concrete demonstration states -/

def infoA : Info := ⟨some ["x"], some ["s1"], none, "A", 0, 100⟩

def infoB : Info := ⟨some ["x", "y"], some ["s2"], none, "B", 0, 100⟩

def infoC : Info := ⟨some ["y"], some ["s2"], none, "C", 0, 100⟩

def infoD : Info := ⟨some ["x"], none, none, "D", 0, 100⟩

/-- Four registered peers: A, B, C Online on connections 0, 1, 2 and D
Offline on connection 3. -/
def stDemo : ServerState :=
  { peerRegistry :=
      [("A", ⟨0, infoA, Status.online⟩),
       ("B", ⟨1, infoB, Status.online⟩),
       ("C", ⟨2, infoC, Status.online⟩),
       ("D", ⟨3, infoD, Status.offline⟩)],
    connections := [(0, "A"), (1, "B"), (2, "C"), (3, "D")] }

theorem discovery_matches_exactly_witness :
    handlePeerDiscovery allOk 9 0 (some ⟨some ⟨some ["x"], none⟩⟩) stDemo
      = ⟨stDemo, [(0, OutMsg.discovery_result [infoB] 1 9)], false⟩ := by
  have h := discovery_matches_exactly allOk 9 0 (some ⟨some ⟨some ["x"], none⟩⟩) stDemo "A"
    (by decide) rfl
  exact h.1.trans (by decide)

/-- C2: a signal from an unbound connection is answered NotRegistered; a
signal to an unknown or Offline target is answered TargetUnreachable
(never a silent no-op); otherwise the target's bound connection receives
exactly one webrtc_signal carrying the sender identity and the unmodified
payload and the sender receives no error. -/
theorem signal_relay_behaviour (sendOk : Ws → Bool) (now : Nat) (ws : Ws)
    (st : ServerState) :
    (∀ d : SignalData, jsGetId st ws = none → sendOk ws = true →
      onFrame sendOk now ws (Frame.parsed (InMsg.signal (some d))) st
        = (st, [(ws, OutMsg.errorNotRegistered)])) ∧
    (∀ (d : SignalData) (src tgt : DeviceId), jsGetId st ws = some src →
      d.target_device_id = some tgt → mapGet st.peerRegistry tgt = none →
      sendOk ws = true →
      onFrame sendOk now ws (Frame.parsed (InMsg.signal (some d))) st
        = (st, [(ws, OutMsg.errorTargetUnreachable)])) ∧
    (∀ (d : SignalData) (src tgt : DeviceId) (tp : PeerRecord), jsGetId st ws = some src →
      d.target_device_id = some tgt → mapGet st.peerRegistry tgt = some tp →
      tp.status = Status.offline → sendOk ws = true →
      onFrame sendOk now ws (Frame.parsed (InMsg.signal (some d))) st
        = (st, [(ws, OutMsg.errorTargetUnreachable)])) ∧
    (∀ (src tgt : DeviceId) (payload : Payload) (tp : PeerRecord),
      jsGetId st ws = some src → mapGet st.peerRegistry tgt = some tp →
      tp.status = Status.online → sendOk tp.ws = true →
      onFrame sendOk now ws (Frame.parsed (InMsg.signal (some ⟨some tgt, some payload⟩))) st
        = (st, [(tp.ws, OutMsg.webrtc_signal src payload)])) := by
  refine ⟨?_, ?_, ?_, ?_⟩
  · intro d hnb hok
    simp [onFrame, handleMessage, handleWebRTCSignaling, hnb, hok]
  · intro d src tgt hb htid htp hok
    obtain ⟨tid, sdata⟩ := d
    simp only at htid
    subst htid
    simp [onFrame, handleMessage, handleWebRTCSignaling, hb, htp, hok]
  · intro d src tgt tp hb htid htp hoff hok
    obtain ⟨tid, sdata⟩ := d
    simp only at htid
    subst htid
    simp [onFrame, handleMessage, handleWebRTCSignaling, hb, htp, hoff, hok]
  · intro src tgt payload tp hb htp hon hok
    simp [onFrame, handleMessage, handleWebRTCSignaling, hb, htp, hon, hok]

theorem signal_relay_behaviour_witness :
    onFrame allOk 9 7 (Frame.parsed (InMsg.signal (some ⟨some "B", some "p"⟩))) stDemo
      = (stDemo, [(7, OutMsg.errorNotRegistered)]) ∧
    onFrame allOk 9 0 (Frame.parsed (InMsg.signal (some ⟨some "Z", some "p"⟩))) stDemo
      = (stDemo, [(0, OutMsg.errorTargetUnreachable)]) ∧
    onFrame allOk 9 0 (Frame.parsed (InMsg.signal (some ⟨some "D", some "p"⟩))) stDemo
      = (stDemo, [(0, OutMsg.errorTargetUnreachable)]) ∧
    onFrame allOk 9 0 (Frame.parsed (InMsg.signal (some ⟨some "B", some "p"⟩))) stDemo
      = (stDemo, [(1, OutMsg.webrtc_signal "A" "p")]) := by
  have h := signal_relay_behaviour allOk 9 7 stDemo
  have h0 := signal_relay_behaviour allOk 9 0 stDemo
  refine ⟨h.1 ⟨some "B", some "p"⟩ (by decide) rfl, ?_, ?_, ?_⟩
  · exact h0.2.1 ⟨some "Z", some "p"⟩ "A" "Z" (by decide) rfl (by decide) rfl
  · exact h0.2.2.1 ⟨some "D", some "p"⟩ "A" "D" ⟨3, infoD, Status.offline⟩ (by decide) rfl
      (by decide) rfl rfl
  · exact h0.2.2.2 "A" "B" "p" ⟨1, infoB, Status.online⟩ (by decide) (by decide) rfl rfl

theorem mem_map_fst_mapSet [DecidableEq α] (m : List (α × β)) (k a : α) (v : β)
    (h : a ∈ (mapSet m k v).map Prod.fst) : a ∈ m.map Prod.fst ∨ a = k := by
  induction m with
  | nil =>
    simp [mapSet] at h
    exact Or.inr h
  | cons p rest ih =>
    by_cases hp : p.1 = k
    · simp only [mapSet, if_pos hp, List.map_cons, List.mem_cons] at h
      rcases h with h | h
      · exact Or.inr h
      · exact Or.inl (List.mem_cons_of_mem _ h)
    · simp only [mapSet, if_neg hp, List.map_cons, List.mem_cons] at h
      rcases h with h | h
      · exact Or.inl (h ▸ List.mem_cons_self _ _)
      · rcases ih h with h2 | h2
        · exact Or.inl (List.mem_cons_of_mem _ h2)
        · exact Or.inr h2

theorem mapSet_keys_nodup [DecidableEq α] (m : List (α × β)) (k : α) (v : β)
    (hnd : (m.map Prod.fst).Nodup) : ((mapSet m k v).map Prod.fst).Nodup := by
  induction m with
  | nil => simp [mapSet]
  | cons p rest ih =>
    rw [List.map_cons, List.nodup_cons] at hnd
    by_cases hp : p.1 = k
    · simp only [mapSet, if_pos hp, List.map_cons, List.nodup_cons]
      exact ⟨hp ▸ hnd.1, hnd.2⟩
    · simp only [mapSet, if_neg hp, List.map_cons, List.nodup_cons]
      refine ⟨?_, ih hnd.2⟩
      intro hc
      rcases mem_map_fst_mapSet rest k p.1 v hc with h | h
      · exact hnd.1 h
      · exact hp h

/-- A stale Online peer A on connection 0, a fresh Online peer B on
connection 1, an Offline record C on connection 2 (sweep time 70000). -/
def stSweep : ServerState :=
  { peerRegistry :=
      [("A", ⟨0, ⟨some ["x"], none, none, "A", 0, 0⟩, Status.online⟩),
       ("B", ⟨1, ⟨some ["y"], none, none, "B", 0, 65000⟩, Status.online⟩),
       ("C", ⟨2, ⟨none, none, none, "C", 0, 0⟩, Status.offline⟩)],
    connections := [(0, "A"), (1, "B"), (2, "C")] }

/-- C5: at a sweep (over a reliable transport) exactly the Online records
whose last_seen age strictly exceeds the 60000 ms staleness threshold
(twice the 30000 ms sweep interval) are demoted to Offline; fresh Online
records and already-Offline records are unchanged, the connection bindings
are untouched, and each demoted peer's timeout peer_left is delivered
within the same sweep to every record that stays Online on a different
connection. -/
theorem sweep_demotes_stale (now : Nat) (st : ServerState)
    (hnd : (st.peerRegistry.map Prod.fst).Nodup) :
    (∀ did p, mapGet st.peerRegistry did = some p →
      mapGet (cleanupSweep allOk now st).1.peerRegistry did =
        some (if now - p.info.last_seen > cleanupTimeoutMs ∧ p.status = Status.online
              then { p with status := Status.offline } else p)) ∧
    (cleanupSweep allOk now st).1.connections = st.connections ∧
    cleanupTimeoutMs = 2 * sweepIntervalMs ∧
    (∀ did p qid q, mapGet st.peerRegistry did = some p →
      now - p.info.last_seen > cleanupTimeoutMs → p.status = Status.online →
      mapGet st.peerRegistry qid = some q → q.status = Status.online →
      ¬(now - q.info.last_seen > cleanupTimeoutMs) → qid ≠ did → q.ws ≠ p.ws →
      (q.ws, OutMsg.peer_left did none (some "timeout")) ∈ (cleanupSweep allOk now st).2) := by
  refine ⟨?_, ?_, rfl, ?_⟩
  · intro did p hget
    have hmem : did ∈ st.peerRegistry.map Prod.fst :=
      List.mem_map_of_mem Prod.fst (mapGet_mem _ _ _ hget)
    exact sweep_foldl_point now (st.peerRegistry.map Prod.fst) (st, []) did p hnd hmem hget
  · exact sweep_foldl_connections allOk now (st.peerRegistry.map Prod.fst) (st, [])
  · intro did p qid q hp hstale hon hq hqon hqfresh hne hws
    have hmem : did ∈ st.peerRegistry.map Prod.fst :=
      List.mem_map_of_mem Prod.fst (mapGet_mem _ _ _ hp)
    exact sweep_foldl_delivers now (st.peerRegistry.map Prod.fst) (st, []) did p qid q hnd
      hmem hp hstale hon hq hqon hqfresh hne hws

theorem sweep_demotes_stale_witness :
    mapGet (cleanupSweep allOk 70000 stSweep).1.peerRegistry "A"
      = some ⟨0, ⟨some ["x"], none, none, "A", 0, 0⟩, Status.offline⟩ ∧
    mapGet (cleanupSweep allOk 70000 stSweep).1.peerRegistry "B"
      = some ⟨1, ⟨some ["y"], none, none, "B", 0, 65000⟩, Status.online⟩ ∧
    mapGet (cleanupSweep allOk 70000 stSweep).1.peerRegistry "C"
      = some ⟨2, ⟨none, none, none, "C", 0, 0⟩, Status.offline⟩ ∧
    (cleanupSweep allOk 70000 stSweep).1.connections = stSweep.connections ∧
    (1, OutMsg.peer_left "A" none (some "timeout")) ∈ (cleanupSweep allOk 70000 stSweep).2 := by
  have h := sweep_demotes_stale 70000 stSweep (by decide)
  refine ⟨?_, ?_, ?_, h.2.1, ?_⟩
  · exact (h.1 "A" ⟨0, ⟨some ["x"], none, none, "A", 0, 0⟩, Status.online⟩ rfl).trans (by decide)
  · exact (h.1 "B" ⟨1, ⟨some ["y"], none, none, "B", 0, 65000⟩, Status.online⟩ rfl).trans
      (by decide)
  · exact (h.1 "C" ⟨2, ⟨none, none, none, "C", 0, 0⟩, Status.offline⟩ rfl).trans (by decide)
  · exact h.2.2.2 "A" ⟨0, ⟨some ["x"], none, none, "A", 0, 0⟩, Status.online⟩
      "B" ⟨1, ⟨some ["y"], none, none, "B", 0, 65000⟩, Status.online⟩ rfl (by decide) rfl rfl
      rfl (by decide) (by decide) (by decide)

/-! ### The claimed binding invariant (C3) -/

/-- Bool rendering of the claimed invariant: every Online record has
exactly one connections-map entry naming it, every Offline record has
none. -/
def claimedBindingInv (st : ServerState) : Bool :=
  st.peerRegistry.all fun e =>
    match e.2.status with
    | Status.online => (st.connections.filter fun c => decide (c.2 = e.1)).length == 1
    | Status.offline => (st.connections.filter fun c => decide (c.2 = e.1)).length == 0

/-- C3 counterexample: register A on connection 0 at time 0 (the claimed
invariant holds), then run one timeout sweep at time 70000: A's record is
demoted to Offline but its connections-map entry survives, so an Offline
record retains a connection binding. -/
theorem binding_invariant_cex :
    claimedBindingInv
        (handlePeerRegistration allOk 0 0 (some ⟨some "A", some ⟨none, none, none⟩⟩)
          ⟨[], []⟩).st = true ∧
    claimedBindingInv
        (cleanupSweep allOk 70000
          (handlePeerRegistration allOk 0 0 (some ⟨some "A", some ⟨none, none, none⟩⟩)
            ⟨[], []⟩).st).1 = false := by
  decide

/-- C3 (amended): demotion does not release bindings.  A timeout sweep
leaves the connections map untouched and every record keeps its bound
connection (only the status can change); a broadcast-failure demotion also
leaves the connections map untouched; only disconnect handling removes the
closing connection's entry from the connections map.  Hence an Offline
record may retain a live connection binding. -/
theorem binding_retention_after_demotion (now : Nat) (st : ServerState) (ws : Ws)
    (sendOk : Ws → Bool) (x : Ws) (msg : OutMsg)
    (hnd : (st.peerRegistry.map Prod.fst).Nodup) :
    (cleanupSweep allOk now st).1.connections = st.connections ∧
    (∀ did p, mapGet st.peerRegistry did = some p →
      ∃ p', mapGet (cleanupSweep allOk now st).1.peerRegistry did = some p' ∧
        p'.ws = p.ws ∧ p'.info = p.info) ∧
    (broadcastToAllExcept sendOk x msg st).1.connections = st.connections ∧
    (∀ did, jsGetId st ws = some did →
      (handleDisconnection sendOk ws st).1.connections = mapDelete st.connections ws) := by
  refine ⟨?_, ?_, broadcast_connections sendOk x msg st, ?_⟩
  · exact sweep_foldl_connections allOk now (st.peerRegistry.map Prod.fst) (st, [])
  · intro did p hget
    have hmem : did ∈ st.peerRegistry.map Prod.fst :=
      List.mem_map_of_mem Prod.fst (mapGet_mem _ _ _ hget)
    refine ⟨_, sweep_foldl_point now (st.peerRegistry.map Prod.fst) (st, []) did p hnd hmem
      hget, ?_⟩
    split <;> exact ⟨rfl, rfl⟩
  · intro did hb
    unfold handleDisconnection
    rw [hb]
    cases hp : mapGet st.peerRegistry did with
    | none => simp [hp]
    | some peer =>
      simp only [hp]
      rw [broadcast_connections]

theorem binding_retention_after_demotion_witness :
    (cleanupSweep allOk 70000 stSweep).1.connections = stSweep.connections ∧
    (∃ p', mapGet (cleanupSweep allOk 70000 stSweep).1.peerRegistry "A" = some p' ∧
      p'.ws = 0 ∧ p'.info = ⟨some ["x"], none, none, "A", 0, 0⟩) ∧
    (broadcastToAllExcept allOk 5 OutMsg.errorInvalidJson stSweep).1.connections
      = stSweep.connections ∧
    (handleDisconnection allOk 0 stSweep).1.connections = mapDelete stSweep.connections 0 := by
  have h := binding_retention_after_demotion 70000 stSweep 0 allOk 5 OutMsg.errorInvalidJson
    (by decide)
  exact ⟨h.1, h.2.1 "A" ⟨0, ⟨some ["x"], none, none, "A", 0, 0⟩, Status.online⟩ rfl,
    h.2.2.1, h.2.2.2 "A" (by decide)⟩

/-! ### Third-party delivery failures (C4) -/

/-- Transport that fails exactly for connection 1. -/
def sendOkNot1 : Ws → Bool := fun w => decide (w ≠ 1)

/-- C4 counterexample: with A, B, C Online on connections 0, 1, 2 and
sends to connection 1 failing: a relay from A to B makes the server report
an error back to A (the caller) and leaves B Online (no demotion); a
broadcast excluding connection 0 still reaches C, demotes B, but issues no
follow-up peer_left (the output contains only the broadcast event
itself). -/
theorem third_party_failure_cex :
    onFrame sendOkNot1 9 0 (Frame.parsed (InMsg.signal (some ⟨some "B", some "p"⟩))) stDemo
      = (stDemo, [(0, OutMsg.errorInvalidJson)]) ∧
    (broadcastToAllExcept sendOkNot1 0 (OutMsg.peer_updated "A" [] []) stDemo).2
      = [(2, OutMsg.peer_updated "A" [] [])] ∧
    mapGet (broadcastToAllExcept sendOkNot1 0
        (OutMsg.peer_updated "A" [] []) stDemo).1.peerRegistry "B"
      = some ⟨1, infoB, Status.offline⟩ := by
  decide

/-- C4 (amended): a failure delivering to a broadcast recipient is not
reported to the excluded caller, the remaining Online recipients still
receive the event, and the failing recipient is demoted to Offline — but
no follow-up peer_left broadcast is issued and the connections map is not
cleaned.  A failure delivering to a relay target demotes nobody: the
exception escapes to the connection's catch-all, which sends the generic
parse-error message to the sender. -/
theorem third_party_failure_behaviour (sendOk : Ws → Bool) (x : Ws) (msg : OutMsg)
    (st : ServerState) (now : Nat) (ws : Ws)
    (hnd : (st.peerRegistry.map Prod.fst).Nodup) :
    (broadcastToAllExcept sendOk x msg st).2 =
      (st.peerRegistry.filter fun e =>
        decide (e.2.ws ≠ x) && decide (e.2.status = Status.online) && sendOk e.2.ws).map
        (fun e => (e.2.ws, msg)) ∧
    (∀ did p, mapGet st.peerRegistry did = some p →
      mapGet (broadcastToAllExcept sendOk x msg st).1.peerRegistry did =
        some (if p.ws ≠ x ∧ p.status = Status.online ∧ sendOk p.ws = false
              then { p with status := Status.offline } else p)) ∧
    (broadcastToAllExcept sendOk x msg st).1.connections = st.connections ∧
    (∀ (src tgt : DeviceId) (payload : Payload) (tp : PeerRecord),
      jsGetId st ws = some src → mapGet st.peerRegistry tgt = some tp →
      tp.status = Status.online → sendOk tp.ws = false → sendOk ws = true →
      onFrame sendOk now ws (Frame.parsed (InMsg.signal (some ⟨some tgt, some payload⟩))) st
        = (st, [(ws, OutMsg.errorInvalidJson)])) := by
  refine ⟨broadcast_out sendOk x msg st, ?_, broadcast_connections sendOk x msg st, ?_⟩
  · intro did p hget
    exact broadcast_point sendOk x msg st did p hnd hget
  · intro src tgt payload tp hb htp hon hfail hok
    simp [onFrame, handleMessage, handleWebRTCSignaling, hb, htp, hon, hfail, hok]

theorem third_party_failure_behaviour_witness :
    (broadcastToAllExcept sendOkNot1 0 (OutMsg.peer_updated "A" [] []) stDemo).2
      = ((stDemo.peerRegistry.filter fun e =>
          decide (e.2.ws ≠ 0) && decide (e.2.status = Status.online) && sendOkNot1 e.2.ws).map
          (fun e => (e.2.ws, OutMsg.peer_updated "A" [] []))) ∧
    mapGet (broadcastToAllExcept sendOkNot1 0
        (OutMsg.peer_updated "A" [] []) stDemo).1.peerRegistry "C"
      = some ⟨2, infoC, Status.online⟩ ∧
    (broadcastToAllExcept sendOkNot1 0 (OutMsg.peer_updated "A" [] []) stDemo).1.connections
      = stDemo.connections ∧
    onFrame sendOkNot1 9 0 (Frame.parsed (InMsg.signal (some ⟨some "B", some "q"⟩))) stDemo
      = (stDemo, [(0, OutMsg.errorInvalidJson)]) := by
  have h := third_party_failure_behaviour sendOkNot1 0 (OutMsg.peer_updated "A" [] []) stDemo
    9 0 (by decide)
  refine ⟨h.1, ?_, h.2.2.1, ?_⟩
  · exact (h.2.1 "C" ⟨2, infoC, Status.online⟩ rfl).trans (by decide)
  · exact h.2.2.2 "A" "B" "q" ⟨1, infoB, Status.online⟩ (by decide) (by decide) rfl
      (by decide) rfl

/-! ### Unregistered heartbeat / capability announcement (C6) -/

/-- C6 counterexample: on a connection with no identity binding both
heartbeat and announce_capability return silently — no error (indeed no
reply at all) is sent and nothing is thrown. -/
theorem unregistered_silent_cex :
    handleMessage allOk 5 7 InMsg.heartbeat ⟨[], []⟩ = ⟨⟨[], []⟩, [], false⟩ ∧
    handleMessage allOk 5 7 (InMsg.announce_capability (some ⟨none, none, none⟩)) ⟨[], []⟩
      = ⟨⟨[], []⟩, [], false⟩ := by
  decide

/-- C6 (amended): a heartbeat or announce_capability arriving on a
connection with no live identity binding is silently ignored: the state is
unchanged and no reply of any kind — in particular no error — is sent. -/
theorem unregistered_silent_noop (sendOk : Ws → Bool) (now : Nat) (ws : Ws)
    (st : ServerState) (d : Option AnnounceData) (hnb : jsGetId st ws = none) :
    handleHeartbeat sendOk now ws st = ⟨st, [], false⟩ ∧
    handleCapabilityAnnouncement sendOk ws d st = ⟨st, [], false⟩ := by
  constructor
  · simp [handleHeartbeat, hnb]
  · simp [handleCapabilityAnnouncement, hnb]

theorem unregistered_silent_noop_witness :
    handleHeartbeat allOk 5 7 stDemo = ⟨stDemo, [], false⟩ ∧
    handleCapabilityAnnouncement allOk 7 (some ⟨none, none, none⟩) stDemo
      = ⟨stDemo, [], false⟩ :=
  unregistered_silent_noop allOk 5 7 stDemo (some ⟨none, none, none⟩) (by decide)

/-! ### Re-registration (C7) -/

/-- C7 counterexample: registering A at time 0 and re-registering A at
time 5 resets registered_at from 0 to 5 — it is not preserved. -/
theorem reregistration_resets_registered_at_cex :
    (mapGet (handlePeerRegistration allOk 0 0 (some ⟨some "A", some ⟨none, none, none⟩⟩)
        ⟨[], []⟩).st.peerRegistry "A").map (fun p => p.info.registered_at) = some 0 ∧
    (mapGet (handlePeerRegistration allOk 5 1 (some ⟨some "A", some ⟨none, none, none⟩⟩)
        (handlePeerRegistration allOk 0 0 (some ⟨some "A", some ⟨none, none, none⟩⟩)
          ⟨[], []⟩).st).st.peerRegistry "A").map (fun p => p.info.registered_at) = some 5 := by
  decide

theorem broadcast_preserves_excluded (sendOk : Ws → Bool) (x : Ws) (msg : OutMsg)
    (st : ServerState) (did : DeviceId) (p : PeerRecord)
    (hnd : (st.peerRegistry.map Prod.fst).Nodup)
    (hget : mapGet st.peerRegistry did = some p) (hx : p.ws = x) :
    mapGet (broadcastToAllExcept sendOk x msg st).1.peerRegistry did = some p := by
  rw [broadcast_point sendOk x msg st did p hnd hget]
  have hno : ¬(p.ws ≠ x ∧ p.status = Status.online ∧ sendOk p.ws = false) :=
    fun hc => hc.1 hx
  rw [if_neg hno]

/-- C7 (amended): registration always replaces the record wholesale: after
any successful register of `did` on connection `ws` at time `now` — also a
re-registration — the record is Online, bound to `ws`, and both
registered_at and last_seen are set to `now` (a previous registered_at is
not preserved). -/
theorem reregistration_replaces_record (sendOk : Ws → Bool) (now : Nat) (ws : Ws)
    (st : ServerState) (did : DeviceId) (pi : DeclaredInfo)
    (hne : ¬(did = "")) (hnd : (st.peerRegistry.map Prod.fst).Nodup) :
    mapGet (handlePeerRegistration sendOk now ws (some ⟨some did, some pi⟩) st).st.peerRegistry
        did =
      some ⟨ws, ⟨pi.capabilities, pi.cluster_specializations, pi.available_resources,
        did, now, now⟩, Status.online⟩ ∧
    mapGet (handlePeerRegistration sendOk now ws (some ⟨some did, some pi⟩) st).st.connections
        ws = some did := by
  unfold handlePeerRegistration
  by_cases hs : sendOk ws = true
  · simp only [hs, if_neg hne, if_true]
    constructor
    · exact broadcast_preserves_excluded _ _ _ _ _ _
        (mapSet_keys_nodup _ _ _ hnd) (mapGet_mapSet_self _ _ _) rfl
    · rw [broadcast_connections]
      exact mapGet_mapSet_self _ _ _
  · simp only [if_neg hne, if_neg hs]
    exact ⟨mapGet_mapSet_self _ _ _, mapGet_mapSet_self _ _ _⟩

theorem reregistration_replaces_record_witness :
    mapGet (handlePeerRegistration allOk 5 9 (some ⟨some "A", some ⟨some ["z"], none, none⟩⟩)
        stDemo).st.peerRegistry "A"
      = some ⟨9, ⟨some ["z"], none, none, "A", 5, 5⟩, Status.online⟩ ∧
    mapGet (handlePeerRegistration allOk 5 9 (some ⟨some "A", some ⟨some ["z"], none, none⟩⟩)
        stDemo).st.connections 9 = some "A" :=
  reregistration_replaces_record allOk 5 9 stDemo "A" ⟨some ["z"], none, none⟩
    (by decide) (by decide)

/-! ### Heartbeat acknowledgement count (C8) -/

/-- C8 counterexample: in a state with three Online records and one
Offline record, a heartbeat is acknowledged with peer_count 4 — the total
record count — while only 3 peers are Online. -/
theorem heartbeat_ack_count_cex :
    (handleHeartbeat allOk 9 0 stDemo).out = [(0, OutMsg.heartbeat_ack 9 4)] ∧
    onlineCount (handleHeartbeat allOk 9 0 stDemo).st = 3 := by
  decide

/-- C8 (amended): the heartbeat reply carries the server time and the
total number of registry records — Online and Offline alike — not the
count of currently Online peers. -/
theorem heartbeat_ack_total_count (sendOk : Ws → Bool) (now : Nat) (ws : Ws)
    (st : ServerState) (did : DeviceId) (peer : PeerRecord)
    (hb : jsGetId st ws = some did) (hp : mapGet st.peerRegistry did = some peer)
    (hok : sendOk ws = true) :
    (handleHeartbeat sendOk now ws st).out
      = [(ws, OutMsg.heartbeat_ack now st.peerRegistry.length)] := by
  unfold handleHeartbeat
  simp only [hb, hp, hok, if_true]
  rw [length_mapSet_of_get st.peerRegistry did _ peer hp]

theorem heartbeat_ack_total_count_witness :
    (handleHeartbeat allOk 9 1 stDemo).out = [(1, OutMsg.heartbeat_ack 9 4)] := by
  have h := heartbeat_ack_total_count allOk 9 1 stDemo "B" ⟨1, infoB, Status.online⟩
    (by decide) (by decide) rfl
  exact h.trans (by decide)
